import Mathlib

/-!
Verification of the UART I/O Stream driver contract of `sl_iostream_uart.h`
(Silicon Labs IO Stream UART component, the one behavioral component of this
repository).

The header under verification provides:
  * the flow-control constants (`uartFlowControlNone`, `uartFlowControlSoftware`,
    `UARTXON`, `UARTXOFF`),
  * the stream-handle structure `sl_iostream_uart_t` holding a generic stream
    base and delegate function pointers,
  * the runtime context structure `sl_iostream_uart_context_t`,
  * thin static-inline wrappers (`sl_iostream_uart_deinit`,
    `sl_iostream_uart_set_auto_cr_lf`, ...) that dispatch through the handle's
    function pointers.

The driver implementation behind the function pointers (the DMA-driven ring
buffer, the XON/XOFF scan, the blocking read, the LF to CRLF expansion) is not
part of the header; those operations are modelled from the specification and
are marked as such in their doc comments.

Pointers into the receive ring buffer (`rx_read_ptr`, `ctrl_char_scan_ptr`,
the DMA engine's write position) are modelled as offsets into the buffer, so
the C pointer range `[rx_buffer, rx_buffer + rx_buffer_len)` becomes the
offset range `[0, rx_buffer_len)`. Bytes are modelled as natural numbers.
-/

namespace IostreamUart

/-- Flow-control mode constant: no flow control (source: `#define uartFlowControlNone 0`). -/
def uartFlowControlNone : Nat := 0

/-- Flow-control mode constant: software flow control (source: `#define uartFlowControlSoftware 0xFFFF`). -/
def uartFlowControlSoftware : Nat := 0xFFFF

/-- Software flow-control resume byte (source: `#define UARTXON 0x11`). -/
def UARTXON : Nat := 0x11

/-- Software flow-control stop byte (source: `#define UARTXOFF 0x13`). -/
def UARTXOFF : Nat := 0x13

/-- Status code type `sl_status_t`; `SL_STATUS_OK` is 0. -/
abbrev sl_status_t := Nat

/-- The success status code. -/
def SL_STATUS_OK : sl_status_t := 0

/--
Shallow embedding of `sl_iostream_uart_context_t`: the mutable runtime state of
one UART stream. Fields kept are the ones the verified properties touch; the
transmit/deinit function pointers of the C struct are modelled separately (as
handle delegates), and the DMA engine's current write position — which in C
lives in the DMA hardware/descriptors rather than in the struct — is modelled
here as the `dma_write_ptr` offset, together with a `dma_channel_allocated`
flag modelling DMADRV channel ownership.
-/
structure sl_iostream_uart_context_t where
  rx_buffer : List Nat
  rx_buffer_len : Nat
  rx_read_ptr : Nat
  lf_to_crlf : Bool
  sw_flow_control : Bool
  ctrl_char_scan_ptr : Nat
  xon : Bool
  remote_xon : Bool
  em_req_added : Bool
  block : Bool
  dma_write_ptr : Nat
  dma_channel_allocated : Bool
  deriving Repr, DecidableEq

/--
Number of bytes lying between offset `r` (read cursor) and offset `w` (DMA
fill position) in a ring of length `len`, index arithmetic wrapping modulo
`len`; equal offsets denote an empty span (the no-overflow reading).
-/
def ring_avail (len r w : Nat) : Nat :=
  if r ≤ w then w - r else len - r + w

/-- Bytes currently buffered between the read cursor and the DMA fill position. -/
def bytes_available (s : sl_iostream_uart_context_t) : Nat :=
  ring_avail s.rx_buffer_len s.rx_read_ptr s.dma_write_ptr

/--
Modelled from the spec: the DMA engine deposits one incoming byte at its
current write position in the circular receive buffer and advances that
position, wrapping at the buffer end (the resume/wrap descriptor pair keeps
reception running without CPU intervention).
-/
def dma_deposit (b : Nat) (s : sl_iostream_uart_context_t) : sl_iostream_uart_context_t :=
  { s with
    rx_buffer := s.rx_buffer.set s.dma_write_ptr b
    dma_write_ptr := (s.dma_write_ptr + 1) % s.rx_buffer_len }

/--
Modelled from the spec: a read operation copies bytes from the read cursor
forward up to the DMA's current fill position, modulo wraparound, then
advances the cursor. Returns the copied bytes and the updated context.
-/
def uart_read (s : sl_iostream_uart_context_t) : List Nat × sl_iostream_uart_context_t :=
  let n := bytes_available s
  let bytes := (List.range n).map
    (fun i => s.rx_buffer.getD ((s.rx_read_ptr + i) % s.rx_buffer_len) 0)
  (bytes, { s with rx_read_ptr := s.dma_write_ptr })

/--
Modelled from the spec: examining one received byte for the two flow-control
characters when software flow control is enabled; the stop code clears
`remote_xon`, the resume code sets it, any other byte leaves it unchanged.
Nothing but `remote_xon` is modified: the byte is not consumed from the
application-visible stream.
-/
def scan_byte (s : sl_iostream_uart_context_t) (b : Nat) : sl_iostream_uart_context_t :=
  { s with
    remote_xon :=
      if s.sw_flow_control then
        if b = UARTXOFF then false
        else if b = UARTXON then true
        else s.remote_xon
      else s.remote_xon }

/-- Bytes received since the last control-character scan ended, in arrival order. -/
def scanned_bytes (s : sl_iostream_uart_context_t) : List Nat :=
  (List.range (ring_avail s.rx_buffer_len s.ctrl_char_scan_ptr s.dma_write_ptr)).map
    (fun i => s.rx_buffer.getD ((s.ctrl_char_scan_ptr + i) % s.rx_buffer_len) 0)

/--
Modelled from the spec: the driver scans newly received bytes (from where the
last scan ended up to the DMA fill position) for the two control characters
without consuming them from the application-visible stream, then records how
far scanning has progressed in `ctrl_char_scan_ptr`.
-/
def scan_ctrl_chars (s : sl_iostream_uart_context_t) : sl_iostream_uart_context_t :=
  { (scanned_bytes s).foldl scan_byte s with ctrl_char_scan_ptr := s.dma_write_ptr }

/--
Modelled from the spec: expansion of outbound line feeds — every line-feed
byte is expanded to the carriage-return then line-feed pair before
transmission; other bytes pass through unchanged.
-/
def crlf_expand (data : List Nat) : List Nat :=
  data.flatMap (fun b => if b = 0x0A then [0x0D, 0x0A] else [b])

/--
Modelled from the spec: the transmit path. While software flow control is
enabled and the remote side has sent the stop code (`remote_xon` is false),
no outbound byte is written to the hardware transmitter; otherwise the data
is emitted, expanded to CRLF pairs when `lf_to_crlf` is set. Returns the
bytes actually written to hardware.
-/
def uart_write (s : sl_iostream_uart_context_t) (data : List Nat) : List Nat :=
  if s.sw_flow_control && !s.remote_xon then []
  else if s.lf_to_crlf then crlf_expand data
  else data

/--
Modelled from the spec: the read entry point under a cooperative scheduler.
With blocking mode enabled and zero bytes available the caller is suspended
(modelled as `none`: the call does not return in this state); otherwise the
buffered bytes are returned immediately, possibly zero of them when blocking
mode is disabled.
-/
def uart_read_blocking (s : sl_iostream_uart_context_t) :
    Option (List Nat × sl_iostream_uart_context_t) :=
  if s.block && bytes_available s == 0 then none
  else some (uart_read s)

/--
Shallow embedding of the generic stream base `sl_iostream_t`: only the
`context` field is relevant here (`C` is the type of the context pointed to
by `stream.context`).
-/
structure sl_iostream_t (C : Type) where
  context : C

/--
Shallow embedding of the handle structure `sl_iostream_uart_t` (source lines
154-170): the generic stream base plus the delegate function pointers
installed at initialization. `H` models the handle pointer itself (the `void
*stream` argument that `deinit` receives), `C` the context state reached
through `stream.context`, `S` the status type and `P` the
`sl_power_manager_on_isr_exit_t` result type. Mutation of the pointed-to
context is modelled by state passing: a `void` C delegate taking the context
becomes `C → ... → C`, and `deinit` — which dereferences the handle — takes
the handle pointer and the current context state.
-/
structure sl_iostream_uart_t (H C S P : Type) where
  stream : sl_iostream_t C
  deinit : H → C → S × C
  set_auto_cr_lf : C → Bool → C
  get_auto_cr_lf : C → Bool
  set_rx_energy_mode_restriction : C → Bool → C
  get_rx_energy_mode_restriction : C → Bool
  sleep_on_isr_exit : C → P
  set_read_block : C → Bool → C
  get_read_block : C → Bool

/--
Embedding of the header wrapper `sl_iostream_uart_deinit` (source lines
248-254, power manager present): first clears the receive energy-mode
restriction through `set_rx_energy_mode_restriction(stream.context, false)`,
then invokes the handle's `deinit` function on the handle pointer itself
(`self`), threading the updated context state through.
-/
def sl_iostream_uart_deinit {H C S P : Type} (self : H)
    (h : sl_iostream_uart_t H C S P) : S × C :=
  let c1 := h.set_rx_energy_mode_restriction h.stream.context false
  h.deinit self c1

/-- Embedding of the header wrapper `sl_iostream_uart_set_auto_cr_lf` (source lines 263-267). -/
def sl_iostream_uart_set_auto_cr_lf {H C S P : Type}
    (h : sl_iostream_uart_t H C S P) (enable : Bool) : C :=
  h.set_auto_cr_lf h.stream.context enable

/-- Embedding of the header wrapper `sl_iostream_uart_get_auto_cr_lf` (source lines 276-279). -/
def sl_iostream_uart_get_auto_cr_lf {H C S P : Type}
    (h : sl_iostream_uart_t H C S P) : Bool :=
  h.get_auto_cr_lf h.stream.context

/-- Embedding of the header wrapper `sl_iostream_uart_set_rx_energy_mode_restriction` (source lines 306-310). -/
def sl_iostream_uart_set_rx_energy_mode_restriction {H C S P : Type}
    (h : sl_iostream_uart_t H C S P) (enable : Bool) : C :=
  h.set_rx_energy_mode_restriction h.stream.context enable

/-- Embedding of the header wrapper `sl_iostream_uart_get_rx_energy_mode_restriction` (source lines 319-322). -/
def sl_iostream_uart_get_rx_energy_mode_restriction {H C S P : Type}
    (h : sl_iostream_uart_t H C S P) : Bool :=
  h.get_rx_energy_mode_restriction h.stream.context

/-- Embedding of the header wrapper `sl_iostream_uart_set_read_block` (source lines 334-338). -/
def sl_iostream_uart_set_read_block {H C S P : Type}
    (h : sl_iostream_uart_t H C S P) (enable : Bool) : C :=
  h.set_read_block h.stream.context enable

/-- Embedding of the header wrapper `sl_iostream_uart_get_read_block` (source lines 347-350). -/
def sl_iostream_uart_get_read_block {H C S P : Type}
    (h : sl_iostream_uart_t H C S P) : Bool :=
  h.get_read_block h.stream.context

/-- Embedding of the header wrapper `sl_iostream_uart_sleep_on_isr_exit` (source lines 364-367). -/
def sl_iostream_uart_sleep_on_isr_exit {H C S P : Type}
    (h : sl_iostream_uart_t H C S P) : P :=
  h.sleep_on_isr_exit h.stream.context

/-- Observable delegate calls made by the `sl_iostream_uart_deinit` wrapper,
recorded in order of occurrence. -/
inductive uart_event where
  | set_rx_em_restriction (enable : Bool)
  | delegate_deinit
  deriving Repr, DecidableEq

/-- A UART context together with the trace of delegate calls performed on it. -/
abbrev traced_context := sl_iostream_uart_context_t × List uart_event

/--
Modelled from the spec: the concrete `set_rx_energy_mode_restriction`
delegate installed at initialization (its body lives in the driver
implementation file, absent from the excerpt). It asserts or clears the
energy-mode requirement, recorded in the context's `em_req_added` flag, and
appends the corresponding event to the trace.
-/
def set_rx_energy_mode_restriction_impl (p : traced_context) (enable : Bool) : traced_context :=
  ({ p.1 with em_req_added := enable }, p.2 ++ [uart_event.set_rx_em_restriction enable])

/--
Modelled from the spec: the concrete `deinit` delegate installed at
initialization (its body lives in the driver implementation file, absent from
the excerpt). It releases the DMA channel and reports success; it does not
assert any energy-mode restriction. Appends the corresponding event to the
trace.
-/
def uart_deinit_impl (p : traced_context) : sl_status_t × traced_context :=
  (SL_STATUS_OK,
   ({ p.1 with dma_channel_allocated := false }, p.2 ++ [uart_event.delegate_deinit]))

/-- Modelled from the spec: the concrete `set_auto_cr_lf` delegate — stores the
requested conversion mode in the context's `lf_to_crlf` flag; always succeeds. -/
def set_auto_cr_lf_impl (c : sl_iostream_uart_context_t) (enable : Bool) : sl_iostream_uart_context_t :=
  { c with lf_to_crlf := enable }

/-- Modelled from the spec: the concrete `get_auto_cr_lf` delegate — returns the
current conversion mode. -/
def get_auto_cr_lf_impl (c : sl_iostream_uart_context_t) : Bool :=
  c.lf_to_crlf

/-- Modelled from the spec: the concrete `get_rx_energy_mode_restriction`
delegate — returns whether the energy-mode requirement is asserted. -/
def get_rx_energy_mode_restriction_impl (c : sl_iostream_uart_context_t) : Bool :=
  c.em_req_added

/-- Modelled from the spec: the concrete `set_read_block` delegate — stores the
requested blocking mode in the context's `block` flag. -/
def set_read_block_impl (c : sl_iostream_uart_context_t) (enable : Bool) : sl_iostream_uart_context_t :=
  { c with block := enable }

/-- Modelled from the spec: the concrete `get_read_block` delegate — returns the
current blocking mode. -/
def get_read_block_impl (c : sl_iostream_uart_context_t) : Bool :=
  c.block

/--
A concrete power-managed UART stream handle whose context threads a call
trace, used to observe the order of the delegate calls the header wrappers
make. The delegates are the spec-modelled implementations above.
-/
def uart_handle_traced (c : traced_context) :
    sl_iostream_uart_t Unit traced_context sl_status_t Unit where
  stream := { context := c }
  deinit := fun _ p => uart_deinit_impl p
  set_auto_cr_lf := fun p enable => (set_auto_cr_lf_impl p.1 enable, p.2)
  get_auto_cr_lf := fun p => get_auto_cr_lf_impl p.1
  set_rx_energy_mode_restriction := set_rx_energy_mode_restriction_impl
  get_rx_energy_mode_restriction := fun p => get_rx_energy_mode_restriction_impl p.1
  sleep_on_isr_exit := fun _ => ()
  set_read_block := fun p enable => (set_read_block_impl p.1 enable, p.2)
  get_read_block := fun p => get_read_block_impl p.1

/--
A concrete UART stream handle over a plain context, with the spec-modelled
delegate implementations installed.
-/
def uart_handle (c : sl_iostream_uart_context_t) :
    sl_iostream_uart_t Unit sl_iostream_uart_context_t sl_status_t Unit where
  stream := { context := c }
  deinit := fun _ c => (SL_STATUS_OK, { c with dma_channel_allocated := false })
  set_auto_cr_lf := set_auto_cr_lf_impl
  get_auto_cr_lf := get_auto_cr_lf_impl
  set_rx_energy_mode_restriction := fun c enable => { c with em_req_added := enable }
  get_rx_energy_mode_restriction := get_rx_energy_mode_restriction_impl
  sleep_on_isr_exit := fun _ => ()
  set_read_block := set_read_block_impl
  get_read_block := get_read_block_impl

/--
The relation between a context state `s`, the full arrival history `h` of
bytes the DMA has deposited, and the number `c` of bytes already consumed by
reads: the fill level is strictly below capacity (no overflow), the read
cursor and the DMA write position are the consumed and arrival counters
reduced modulo the buffer length, and the unread slice of the history sits in
the ring at its wrapped positions.
-/
def ring_inv (h : List Nat) (c : Nat) (s : sl_iostream_uart_context_t) : Prop :=
  0 < s.rx_buffer_len ∧
  s.rx_buffer.length = s.rx_buffer_len ∧
  c ≤ h.length ∧
  h.length - c < s.rx_buffer_len ∧
  s.rx_read_ptr = c % s.rx_buffer_len ∧
  s.dma_write_ptr = h.length % s.rx_buffer_len ∧
  ∀ i, c ≤ i → i < h.length → s.rx_buffer.getD (i % s.rx_buffer_len) 0 = h.getD i 0

/-- The operations acting on a UART context: a DMA byte deposit, a read, and a
control-character scan. -/
inductive uart_op where
  | deposit (b : Nat)
  | read
  | scan
  deriving Repr, DecidableEq

/-- Apply one operation to the context. -/
def apply_op (s : sl_iostream_uart_context_t) : uart_op → sl_iostream_uart_context_t
  | uart_op.deposit b => dma_deposit b s
  | uart_op.read => (uart_read s).2
  | uart_op.scan => scan_ctrl_chars s

/-- Run a sequence of operations on the context. -/
def run_ops (s : sl_iostream_uart_context_t) (ops : List uart_op) : sl_iostream_uart_context_t :=
  ops.foldl apply_op s

/-- Total number of bytes the DMA deposits over a sequence of operations. -/
def deposited_count : List uart_op → Nat
  | [] => 0
  | uart_op.deposit _ :: rest => deposited_count rest + 1
  | uart_op.read :: rest => deposited_count rest
  | uart_op.scan :: rest => deposited_count rest

/-- Total number of bytes consumed by the reads in a sequence of operations
executed from state `s`. -/
def consumed_count : sl_iostream_uart_context_t → List uart_op → Nat
  | _, [] => 0
  | s, uart_op.deposit b :: rest => consumed_count (apply_op s (uart_op.deposit b)) rest
  | s, uart_op.read :: rest =>
    bytes_available s + consumed_count (apply_op s uart_op.read) rest
  | s, uart_op.scan :: rest => consumed_count (apply_op s uart_op.scan) rest

/-- A concrete sample context: ring of length 4 holding arrival history `[7, 8]`
of which 1 byte is consumed; flow control off, conversion off. -/
def sample_ctx : sl_iostream_uart_context_t where
  rx_buffer := [7, 8, 0, 0]
  rx_buffer_len := 4
  rx_read_ptr := 1
  lf_to_crlf := false
  sw_flow_control := false
  ctrl_char_scan_ptr := 1
  xon := true
  remote_xon := true
  em_req_added := true
  block := false
  dma_write_ptr := 2
  dma_channel_allocated := true

/-- A concrete sample context with software flow control enabled and the remote
side stopped. -/
def sample_ctx_fc : sl_iostream_uart_context_t where
  rx_buffer := [0, 0, 0, 0]
  rx_buffer_len := 4
  rx_read_ptr := 0
  lf_to_crlf := false
  sw_flow_control := true
  ctrl_char_scan_ptr := 0
  xon := true
  remote_xon := false
  em_req_added := true
  block := false
  dma_write_ptr := 0
  dma_channel_allocated := true

/-- A concrete sample context with LF-to-CRLF conversion enabled. -/
def sample_ctx_lf : sl_iostream_uart_context_t where
  rx_buffer := [0, 0, 0, 0]
  rx_buffer_len := 4
  rx_read_ptr := 0
  lf_to_crlf := true
  sw_flow_control := false
  ctrl_char_scan_ptr := 0
  xon := true
  remote_xon := true
  em_req_added := false
  block := false
  dma_write_ptr := 0
  dma_channel_allocated := true

/-- A concrete sample context in blocking mode with an empty receive buffer. -/
def sample_ctx_empty : sl_iostream_uart_context_t where
  rx_buffer := [0, 0, 0, 0]
  rx_buffer_len := 4
  rx_read_ptr := 1
  lf_to_crlf := false
  sw_flow_control := false
  ctrl_char_scan_ptr := 1
  xon := true
  remote_xon := true
  em_req_added := false
  block := true
  dma_write_ptr := 1
  dma_channel_allocated := true

/-- A concrete reset context: empty ring of length 4, all cursors at offset 0. -/
def sample_ctx_reset : sl_iostream_uart_context_t where
  rx_buffer := [0, 0, 0, 0]
  rx_buffer_len := 4
  rx_read_ptr := 0
  lf_to_crlf := false
  sw_flow_control := false
  ctrl_char_scan_ptr := 0
  xon := true
  remote_xon := true
  em_req_added := false
  block := false
  dma_write_ptr := 0
  dma_channel_allocated := true

/-- A concrete sample operation sequence: two deposits, a read, a deposit, a
scan, and a final read. -/
def sample_ops : List uart_op :=
  [uart_op.deposit 65, uart_op.deposit 66, uart_op.read,
   uart_op.deposit 67, uart_op.scan, uart_op.read]

-- ---------------------------------------------------------------------------
-- Theorems
-- ---------------------------------------------------------------------------

/--
C10: the software flow-control stop and resume control characters are the
byte values 0x13 (`UARTXOFF`) and 0x11 (`UARTXON`), and the flow-control mode
constants are 0 (`uartFlowControlNone`) and 0xFFFF (`uartFlowControlSoftware`).
-/
theorem C10_flow_control_constants :
    UARTXOFF = 0x13 ∧ UARTXON = 0x11 ∧
    uartFlowControlNone = 0 ∧ uartFlowControlSoftware = 0xFFFF :=
  ⟨rfl, rfl, rfl, rfl⟩

/--
C9: `sl_iostream_uart_deinit` passes the handle pointer itself to the
handle's `deinit` function pointer and returns that delegate's result (status
and context) unchanged, whereas every accessor/mutator wrapper passes
`iostream_uart->stream.context` to its delegate and returns the delegate's
result unchanged. Stated for every handle and every choice of delegates.
-/
theorem C9_wrapper_dispatch {H C S P : Type} (self : H)
    (h : sl_iostream_uart_t H C S P) (enable : Bool) :
    sl_iostream_uart_deinit self h
      = h.deinit self (h.set_rx_energy_mode_restriction h.stream.context false) ∧
    sl_iostream_uart_set_auto_cr_lf h enable
      = h.set_auto_cr_lf h.stream.context enable ∧
    sl_iostream_uart_get_auto_cr_lf h = h.get_auto_cr_lf h.stream.context ∧
    sl_iostream_uart_set_rx_energy_mode_restriction h enable
      = h.set_rx_energy_mode_restriction h.stream.context enable ∧
    sl_iostream_uart_get_rx_energy_mode_restriction h
      = h.get_rx_energy_mode_restriction h.stream.context ∧
    sl_iostream_uart_set_read_block h enable
      = h.set_read_block h.stream.context enable ∧
    sl_iostream_uart_get_read_block h = h.get_read_block h.stream.context ∧
    sl_iostream_uart_sleep_on_isr_exit h = h.sleep_on_isr_exit h.stream.context :=
  ⟨rfl, rfl, rfl, rfl, rfl, rfl, rfl, rfl⟩

/--
C1: for every power-managed UART context state, `sl_iostream_uart_deinit`
calls `set_rx_energy_mode_restriction` with `false` strictly before invoking
the handle's `deinit` delegate — the recorded delegate-call trace is exactly
the restriction-clear event followed by the deinit event — and after the call
returns no energy-mode restriction remains asserted for the stream.
-/
theorem C1_deinit_clears_restriction_first (c : sl_iostream_uart_context_t) :
    (sl_iostream_uart_deinit () (uart_handle_traced (c, []))).2.2
      = [uart_event.set_rx_em_restriction false, uart_event.delegate_deinit] ∧
    (sl_iostream_uart_deinit () (uart_handle_traced (c, []))).2.1.em_req_added = false ∧
    (sl_iostream_uart_deinit () (uart_handle_traced (c, []))).1 = SL_STATUS_OK :=
  ⟨rfl, rfl, rfl⟩

/--
C7: setting the auto CR-LF mode to `b` and then reading it back with no
intervening set returns `b`; the set is a total state update (it cannot
fail), and it takes effect for subsequent writes — with software flow control
off, a write after the set emits the CRLF-expanded data exactly when `b` is
set.
-/
theorem C7_set_get_auto_cr_lf (c : sl_iostream_uart_context_t) (b : Bool)
    (data : List Nat) (hfc : c.sw_flow_control = false) :
    sl_iostream_uart_get_auto_cr_lf
        (uart_handle (sl_iostream_uart_set_auto_cr_lf (uart_handle c) b)) = b ∧
    uart_write (sl_iostream_uart_set_auto_cr_lf (uart_handle c) b) data
      = (if b then crlf_expand data else data) := by
  refine ⟨rfl, ?_⟩
  show uart_write (set_auto_cr_lf_impl c b) data = _
  unfold uart_write set_auto_cr_lf_impl
  simp [hfc]

/-- Instantiation of the C7 theorem at a concrete context and concrete data. -/
theorem C7_set_get_auto_cr_lf_witness :
    sample_ctx.sw_flow_control = false ∧
    (sl_iostream_uart_get_auto_cr_lf
        (uart_handle (sl_iostream_uart_set_auto_cr_lf (uart_handle sample_ctx) true)) = true ∧
     uart_write (sl_iostream_uart_set_auto_cr_lf (uart_handle sample_ctx) true) [65, 10]
       = (if true then crlf_expand [65, 10] else [65, 10])) :=
  ⟨rfl, C7_set_get_auto_cr_lf sample_ctx true [65, 10] rfl⟩

/-- In the CRLF-expanded stream, every line-feed byte is immediately preceded
by a carriage-return byte. -/
theorem crlf_expand_lf_preceded (data : List Nat) :
    ∀ i, (crlf_expand data).get? i = some 0x0A →
      1 ≤ i ∧ (crlf_expand data).get? (i - 1) = some 0x0D := by
  induction data with
  | nil =>
    intro i h
    simp [crlf_expand] at h
  | cons b t ih =>
    by_cases hb : b = 0x0A
    · subst hb
      have hexp : crlf_expand (0x0A :: t) = 0x0D :: 0x0A :: crlf_expand t := by
        simp [crlf_expand]
      rw [hexp]
      intro i h
      match i, h with
      | 0, h => simp at h
      | 1, _ => exact ⟨Nat.le_refl 1, rfl⟩
      | (k+2), h =>
        obtain ⟨hk, hd⟩ := ih k (by simpa using h)
        obtain ⟨m, rfl⟩ : ∃ m, k = m + 1 := ⟨k - 1, by omega⟩
        refine ⟨by omega, ?_⟩
        show (0x0D :: 0x0A :: crlf_expand t).get? (m + 2) = some 0x0D
        simpa using hd
    · have hexp : crlf_expand (b :: t) = b :: crlf_expand t := by
        simp [crlf_expand, hb]
      rw [hexp]
      intro i h
      match i, h with
      | 0, h => exact absurd (by simpa using h) hb
      | (k+1), h =>
        obtain ⟨hk, hd⟩ := ih k (by simpa using h)
        obtain ⟨m, rfl⟩ : ∃ m, k = m + 1 := ⟨k - 1, by omega⟩
        refine ⟨by omega, ?_⟩
        show (b :: crlf_expand t).get? (m + 1) = some 0x0D
        simpa using hd

/-- CRLF expansion adds one carriage return per input line feed and leaves the
line-feed count unchanged: the carriage return preceding each output line
feed is a new byte, not one of the input's. -/
theorem crlf_expand_counts (data : List Nat) :
    (crlf_expand data).count 0x0D = data.count 0x0D + data.count 0x0A ∧
    (crlf_expand data).count 0x0A = data.count 0x0A := by
  induction data with
  | nil => exact ⟨rfl, rfl⟩
  | cons b t ih =>
    obtain ⟨ih1, ih2⟩ := ih
    by_cases hb : b = 0x0A
    · subst hb
      have hexp : crlf_expand (0x0A :: t) = 0x0D :: 0x0A :: crlf_expand t := by
        simp [crlf_expand]
      rw [hexp]
      refine ⟨?_, ?_⟩ <;> simp [List.count_cons, ih1, ih2] <;> omega
    · have hexp : crlf_expand (b :: t) = b :: crlf_expand t := by
        simp [crlf_expand, hb]
      rw [hexp]
      refine ⟨?_, ?_⟩ <;> simp [List.count_cons, ih1, ih2, hb] <;> omega

/--
C4: with automatic LF-to-CRLF conversion enabled, every line-feed byte in
the transmitted output stream is immediately preceded by a carriage-return
byte, and that carriage return is not one of the input's: the expansion adds
exactly one carriage return per input line feed (every outbound line feed
becomes the carriage-return-then-line-feed pair before transmission).
-/
theorem C4_auto_crlf_expansion (s : sl_iostream_uart_context_t) (data : List Nat)
    (i : Nat) (hmode : s.lf_to_crlf = true)
    (h : (uart_write s data).get? i = some 0x0A) :
    (1 ≤ i ∧ (uart_write s data).get? (i - 1) = some 0x0D) ∧
    (crlf_expand data).count 0x0D = data.count 0x0D + data.count 0x0A ∧
    (crlf_expand data).count 0x0A = data.count 0x0A := by
  refine ⟨?_, crlf_expand_counts data⟩
  unfold uart_write at h ⊢
  by_cases hfc : (s.sw_flow_control && !s.remote_xon) = true
  · rw [if_pos hfc] at h
    simp at h
  · rw [if_neg hfc] at h ⊢
    rw [if_pos hmode] at h ⊢
    exact crlf_expand_lf_preceded data i h

/-- Instantiation of the C4 theorem: writing `[65, 10]` with conversion on
transmits `[65, 13, 10]`, whose line feed at position 2 is preceded by the
inserted carriage return. -/
theorem C4_auto_crlf_expansion_witness :
    sample_ctx_lf.lf_to_crlf = true ∧
    (uart_write sample_ctx_lf [65, 10]).get? 2 = some 0x0A ∧
    ((1 ≤ 2 ∧ (uart_write sample_ctx_lf [65, 10]).get? (2 - 1) = some 0x0D) ∧
     (crlf_expand [65, 10]).count 0x0D = [65, 10].count 0x0D + [65, 10].count 0x0A ∧
     (crlf_expand [65, 10]).count 0x0A = [65, 10].count 0x0A) :=
  ⟨rfl, rfl, C4_auto_crlf_expansion sample_ctx_lf [65, 10] 2 rfl rfl⟩

/--
C5: with software flow control enabled, scanning the stop byte (`UARTXOFF`)
clears `remote_xon`; while `remote_xon` is false no outbound byte is written
to the hardware transmitter; scanning the resume byte (`UARTXON`) sets
`remote_xon` back to true and no other byte can set it; after the resume byte
is scanned, transmission proceeds again.
-/
theorem C5_software_flow_control_gating (s : sl_iostream_uart_context_t)
    (data : List Nat) (b : Nat) (hfc : s.sw_flow_control = true) :
    (scan_byte s UARTXOFF).remote_xon = false ∧
    (s.remote_xon = false → uart_write s data = []) ∧
    (scan_byte s UARTXON).remote_xon = true ∧
    (b ≠ UARTXON → (scan_byte s b).remote_xon = true → s.remote_xon = true) ∧
    uart_write (scan_byte s UARTXON) data
      = (if s.lf_to_crlf then crlf_expand data else data) := by
  refine ⟨?_, ?_, ?_, ?_, ?_⟩
  · simp [scan_byte, hfc]
  · intro hr
    simp [uart_write, hfc, hr]
  · simp [scan_byte, hfc, UARTXON, UARTXOFF]
  · intro hbne hsc
    by_cases h1 : b = UARTXOFF
    · subst h1
      simp [scan_byte, hfc] at hsc
    · by_cases h2 : b = UARTXON
      · exact absurd h2 hbne
      · simpa [scan_byte, hfc, h1, h2] using hsc
  · simp [uart_write, scan_byte, hfc, UARTXON, UARTXOFF]

/-- Instantiation of the C5 theorem at a stopped, flow-controlled context. -/
theorem C5_software_flow_control_gating_witness :
    sample_ctx_fc.sw_flow_control = true ∧
    ((scan_byte sample_ctx_fc UARTXOFF).remote_xon = false ∧
     (sample_ctx_fc.remote_xon = false → uart_write sample_ctx_fc [65] = []) ∧
     (scan_byte sample_ctx_fc UARTXON).remote_xon = true ∧
     (34 ≠ UARTXON → (scan_byte sample_ctx_fc 34).remote_xon = true →
        sample_ctx_fc.remote_xon = true) ∧
     uart_write (scan_byte sample_ctx_fc UARTXON) [65]
       = (if sample_ctx_fc.lf_to_crlf then crlf_expand [65] else [65])) :=
  ⟨rfl, C5_software_flow_control_gating sample_ctx_fc [65] 34 rfl⟩

/-- The number of bytes a read returns equals the number of buffered bytes. -/
theorem uart_read_length (s : sl_iostream_uart_context_t) :
    (uart_read s).1.length = bytes_available s := by
  simp [uart_read]

/--
C8: with blocking mode enabled, a read issued with zero bytes available does
not return (the caller stays suspended), and once a byte is deposited a read
returns with exactly one byte; with blocking mode disabled, a read returns
immediately with whatever is buffered (possibly zero bytes); whenever at
least one byte is buffered a read returns at least one byte.
-/
theorem C8_read_block_semantics (s : sl_iostream_uart_context_t) (b : Nat)
    (hr : s.rx_read_ptr < s.rx_buffer_len) (hw : s.dma_write_ptr < s.rx_buffer_len)
    (hlen : 1 < s.rx_buffer_len) :
    (s.block = true → bytes_available s = 0 → uart_read_blocking s = none) ∧
    (bytes_available s = 0 →
      ∃ out s2, uart_read_blocking (dma_deposit b s) = some (out, s2) ∧ out.length = 1) ∧
    (s.block = false → uart_read_blocking s = some (uart_read s)) ∧
    (0 < bytes_available s →
      ∃ out s2, uart_read_blocking s = some (out, s2) ∧ 0 < out.length) := by
  refine ⟨?_, ?_, ?_, ?_⟩
  · intro hb hz
    simp [uart_read_blocking, hb, hz]
  · intro hz
    have hrw : s.rx_read_ptr = s.dma_write_ptr := by
      unfold bytes_available ring_avail at hz
      split at hz <;> omega
    have havail1 : bytes_available (dma_deposit b s) = 1 := by
      show ring_avail s.rx_buffer_len s.rx_read_ptr
        ((s.dma_write_ptr + 1) % s.rx_buffer_len) = 1
      rcases Nat.lt_or_ge (s.dma_write_ptr + 1) s.rx_buffer_len with hlt | hge
      · rw [Nat.mod_eq_of_lt hlt]
        unfold ring_avail
        rw [if_pos (by omega)]
        omega
      · have hEq : s.dma_write_ptr + 1 = s.rx_buffer_len := by omega
        rw [hEq, Nat.mod_self]
        unfold ring_avail
        rw [if_neg (by omega)]
        omega
    refine ⟨(uart_read (dma_deposit b s)).1, (uart_read (dma_deposit b s)).2, ?_, ?_⟩
    · simp [uart_read_blocking, havail1]
    · rw [uart_read_length]
      exact havail1
  · intro hb
    simp [uart_read_blocking, hb]
  · intro hpos
    have h0 : bytes_available s ≠ 0 := by omega
    refine ⟨(uart_read s).1, (uart_read s).2, ?_, ?_⟩
    · unfold uart_read_blocking
      rw [if_neg (by simp [h0])]
    · rw [uart_read_length]
      exact hpos

/-- Instantiation of the C8 theorem at an empty blocking-mode context. -/
theorem C8_read_block_semantics_witness :
    sample_ctx_empty.rx_read_ptr < sample_ctx_empty.rx_buffer_len ∧
    sample_ctx_empty.dma_write_ptr < sample_ctx_empty.rx_buffer_len ∧
    1 < sample_ctx_empty.rx_buffer_len ∧
    ((sample_ctx_empty.block = true → bytes_available sample_ctx_empty = 0 →
        uart_read_blocking sample_ctx_empty = none) ∧
     (bytes_available sample_ctx_empty = 0 →
       ∃ out s2, uart_read_blocking (dma_deposit 65 sample_ctx_empty) = some (out, s2) ∧
         out.length = 1) ∧
     (sample_ctx_empty.block = false →
       uart_read_blocking sample_ctx_empty = some (uart_read sample_ctx_empty)) ∧
     (0 < bytes_available sample_ctx_empty →
       ∃ out s2, uart_read_blocking sample_ctx_empty = some (out, s2) ∧ 0 < out.length)) :=
  ⟨by decide, by decide, by decide,
   C8_read_block_semantics sample_ctx_empty 65 (by decide) (by decide) (by decide)⟩

/-- An in-bounds index on a list makes `get?` return the `getD` value. -/
theorem get?_eq_some_getD {l : List Nat} {i : Nat} (h : i < l.length) :
    l.get? i = some (l.getD i 0) := by
  rw [List.getD_eq_get?]
  rcases hx : l.get? i with _ | v
  · have := List.get?_eq_none.mp hx
    omega
  · rfl

/-- Wrapped span length between reduced cursors: the span from `a % len` to
`(a + d) % len` in a ring of length `len` is `d % len`. -/
theorem ring_avail_mod (len a d : Nat) (hlen : 0 < len) :
    ring_avail len (a % len) ((a + d) % len) = d % len := by
  set r := a % len with hr_def
  set w := (a + d) % len with hw_def
  have hr : r < len := Nat.mod_lt _ hlen
  have hw : w < len := Nat.mod_lt _ hlen
  have key : ring_avail len r w < len ∧ (r + ring_avail len r w) % len = (a + d) % len := by
    unfold ring_avail
    by_cases h : r ≤ w
    · rw [if_pos h]
      refine ⟨by omega, ?_⟩
      rw [Nat.add_sub_cancel' h, hw_def]
      rw [Nat.mod_eq_of_lt hw]
    · rw [if_neg h]
      refine ⟨by omega, ?_⟩
      have hsum : r + (len - r + w) = len + w := by omega
      rw [hsum, Nat.add_mod_left, hw_def]
      rw [Nat.mod_eq_of_lt hw]
  obtain ⟨hlt, heq⟩ := key
  have h₁ : r ≡ a [MOD len] := by
    show r % len = a % len
    rw [Nat.mod_eq_of_lt hr]
  have h₂ : r + ring_avail len r w ≡ a + d [MOD len] := heq
  have h₃ : ring_avail len r w ≡ d [MOD len] := Nat.ModEq.add_left_cancel h₁ h₂
  calc ring_avail len r w = ring_avail len r w % len := (Nat.mod_eq_of_lt hlt).symm
    _ = d % len := h₃

/-- Under the ring invariant, the number of buffered bytes is the unread part
of the arrival history. -/
theorem bytes_available_of_ring_inv {h : List Nat} {c : Nat}
    {s : sl_iostream_uart_context_t} (hinv : ring_inv h c s) :
    bytes_available s = h.length - c := by
  obtain ⟨hlen, hbuf, hc, hd, hr, hw, hcontent⟩ := hinv
  have hsplit : h.length % s.rx_buffer_len = (c + (h.length - c)) % s.rx_buffer_len := by
    have : c + (h.length - c) = h.length := by omega
    rw [this]
  unfold bytes_available
  rw [hr, hw, hsplit]
  rw [ring_avail_mod _ _ _ hlen]
  exact Nat.mod_eq_of_lt hd

/-- Core read correctness: under the ring invariant, a read returns exactly
the unread suffix of the arrival history, in order, and re-establishes the
invariant with the cursor advanced past the returned bytes. -/
theorem uart_read_unread {h : List Nat} {c : Nat} {s : sl_iostream_uart_context_t}
    (hinv : ring_inv h c s) :
    (uart_read s).1 = h.drop c ∧ ring_inv h h.length (uart_read s).2 := by
  have havail := bytes_available_of_ring_inv hinv
  obtain ⟨hlen, hbuf, hc, hd, hr, hw, hcontent⟩ := hinv
  constructor
  · show (List.range (bytes_available s)).map
      (fun i => s.rx_buffer.getD ((s.rx_read_ptr + i) % s.rx_buffer_len) 0) = h.drop c
    rw [havail]
    apply List.ext_get?
    intro n
    rcases Nat.lt_or_ge n (h.length - c) with hn | hn
    · have hcn : c + n < h.length := by omega
      have hidx : (s.rx_read_ptr + n) % s.rx_buffer_len = (c + n) % s.rx_buffer_len := by
        rw [hr, Nat.mod_add_mod]
      have hdrop : (h.drop c).get? n = h.get? (c + n) := by
        rw [List.get?_drop]
      rw [List.get?_map, List.get?_range hn, hdrop, get?_eq_some_getD hcn]
      show some (s.rx_buffer.getD ((s.rx_read_ptr + n) % s.rx_buffer_len) 0)
        = some (h.getD (c + n) 0)
      rw [hidx, hcontent (c + n) (by omega) hcn]
    · have h1 : ((List.range (h.length - c)).map
          (fun i => s.rx_buffer.getD ((s.rx_read_ptr + i) % s.rx_buffer_len) 0)).get? n
            = none := by
        apply List.get?_eq_none.mpr
        simp
        omega
      have h2 : (h.drop c).get? n = none := by
        apply List.get?_eq_none.mpr
        simp
        omega
      rw [h1, h2]
  · refine ⟨hlen, hbuf, Nat.le_refl _,
      (by omega : h.length - h.length < s.rx_buffer_len), ?_, hw, ?_⟩
    · show s.dma_write_ptr = h.length % s.rx_buffer_len
      exact hw
    · intro i h1 h2
      exact absurd h2 (by omega)

/--
C2: for every receive-buffer state whose fill level is below capacity (no
overflow), a single read returns exactly the bytes lying between the prior
read cursor and the current DMA fill position — the unread suffix of the
arrival history, in arrival order, with no byte duplicated and no byte lost —
and advances the read cursor past the returned bytes (the ring invariant is
re-established with everything consumed).
-/
theorem C2_read_returns_unread_bytes (h : List Nat) (c : Nat)
    (s : sl_iostream_uart_context_t) (hinv : ring_inv h c s) :
    (uart_read s).1 = h.drop c ∧ ring_inv h h.length (uart_read s).2 :=
  uart_read_unread hinv

/-- A proof of the ring invariant for the concrete sample context holding
history `[7, 8]` with 1 byte consumed. -/
theorem sample_ctx_ring_inv : ring_inv [7, 8] 1 sample_ctx := by
  refine ⟨by decide, by decide, by decide, by decide, by decide, by decide, ?_⟩
  intro i h1 h2
  have hi : i = 1 := by simp at h2; omega
  subst hi
  rfl

/-- Instantiation of the C2 theorem at the concrete sample context. -/
theorem C2_read_returns_unread_bytes_witness :
    ring_inv [7, 8] 1 sample_ctx ∧
    ((uart_read sample_ctx).1 = [7, 8].drop 1 ∧
     ring_inv [7, 8] ([7, 8] : List Nat).length (uart_read sample_ctx).2) :=
  ⟨sample_ctx_ring_inv,
   C2_read_returns_unread_bytes [7, 8] 1 sample_ctx sample_ctx_ring_inv⟩

/-- Folding the control-character scan over any byte list changes at most the
`remote_xon` flag: buffer, cursors and mode flags are untouched. -/
theorem foldl_scan_byte_fields (l : List Nat) (s : sl_iostream_uart_context_t) :
    (l.foldl scan_byte s).rx_buffer = s.rx_buffer ∧
    (l.foldl scan_byte s).rx_buffer_len = s.rx_buffer_len ∧
    (l.foldl scan_byte s).rx_read_ptr = s.rx_read_ptr ∧
    (l.foldl scan_byte s).dma_write_ptr = s.dma_write_ptr ∧
    (l.foldl scan_byte s).ctrl_char_scan_ptr = s.ctrl_char_scan_ptr := by
  induction l generalizing s with
  | nil => exact ⟨rfl, rfl, rfl, rfl, rfl⟩
  | cons b t ih =>
    rw [List.foldl_cons]
    exact ih (scan_byte s b)

/-- The scan pass preserves the buffer, both stream cursors and the buffer
length, and records the fill position it scanned up to. -/
theorem scan_ctrl_chars_fields (s : sl_iostream_uart_context_t) :
    (scan_ctrl_chars s).rx_buffer = s.rx_buffer ∧
    (scan_ctrl_chars s).rx_buffer_len = s.rx_buffer_len ∧
    (scan_ctrl_chars s).rx_read_ptr = s.rx_read_ptr ∧
    (scan_ctrl_chars s).dma_write_ptr = s.dma_write_ptr ∧
    (scan_ctrl_chars s).ctrl_char_scan_ptr = s.dma_write_ptr := by
  obtain ⟨h1, h2, h3, h4, h5⟩ := foldl_scan_byte_fields (scanned_bytes s) s
  exact ⟨h1, h2, h3, h4, rfl⟩

/-- The ring invariant is insensitive to the control-character scan. -/
theorem ring_inv_scan {h : List Nat} {c : Nat} {s : sl_iostream_uart_context_t}
    (hinv : ring_inv h c s) : ring_inv h c (scan_ctrl_chars s) := by
  obtain ⟨f1, f2, f3, f4, f5⟩ := scan_ctrl_chars_fields s
  obtain ⟨hlen, hbuf, hc, hd, hr, hw, hcontent⟩ := hinv
  refine ⟨?_, ?_, hc, ?_, ?_, ?_, ?_⟩
  · rw [f2]; exact hlen
  · rw [f1, f2]; exact hbuf
  · rw [f2]; exact hd
  · rw [f3, f2]; exact hr
  · rw [f4, f2]; exact hw
  · intro i h1 h2
    rw [f1, f2]
    exact hcontent i h1 h2

/--
C6: the flow-control scan of newly received bytes does not consume them from
the application-visible stream: it leaves the receive buffer, the read
cursor and the DMA fill position untouched, only advancing its own scan
cursor `ctrl_char_scan_ptr` to the fill position, and a subsequent read
returns exactly the bytes the DMA deposited — including any XON/XOFF control
bytes present in the arrival history.
-/
theorem C6_scan_does_not_consume (h : List Nat) (c : Nat)
    (s : sl_iostream_uart_context_t) (hinv : ring_inv h c s) :
    (scan_ctrl_chars s).rx_buffer = s.rx_buffer ∧
    (scan_ctrl_chars s).rx_read_ptr = s.rx_read_ptr ∧
    (scan_ctrl_chars s).ctrl_char_scan_ptr = s.dma_write_ptr ∧
    (uart_read (scan_ctrl_chars s)).1 = h.drop c := by
  obtain ⟨f1, f2, f3, f4, f5⟩ := scan_ctrl_chars_fields s
  exact ⟨f1, f3, f5, (uart_read_unread (ring_inv_scan hinv)).1⟩

/-- Instantiation of the C6 theorem at the concrete sample context. -/
theorem C6_scan_does_not_consume_witness :
    ring_inv [7, 8] 1 sample_ctx ∧
    ((scan_ctrl_chars sample_ctx).rx_buffer = sample_ctx.rx_buffer ∧
     (scan_ctrl_chars sample_ctx).rx_read_ptr = sample_ctx.rx_read_ptr ∧
     (scan_ctrl_chars sample_ctx).ctrl_char_scan_ptr = sample_ctx.dma_write_ptr ∧
     (uart_read (scan_ctrl_chars sample_ctx)).1 = [7, 8].drop 1) :=
  ⟨sample_ctx_ring_inv,
   C6_scan_does_not_consume [7, 8] 1 sample_ctx sample_ctx_ring_inv⟩

/-- Counter simulation: if the cursors of `s` are the reduced images (modulo
the buffer length) of ghost arrival/consumption counters `dep` and `con` with
`con ≤ dep`, then running any operation sequence keeps the cursors the
reduced images of the updated counters, and consumption never overtakes
arrival. -/
theorem run_ops_counters (ops : List uart_op) :
    ∀ (s : sl_iostream_uart_context_t) (dep con : Nat),
    0 < s.rx_buffer_len →
    s.rx_buffer.length = s.rx_buffer_len →
    con ≤ dep →
    s.rx_read_ptr = con % s.rx_buffer_len →
    s.dma_write_ptr = dep % s.rx_buffer_len →
    (run_ops s ops).rx_buffer_len = s.rx_buffer_len ∧
    (run_ops s ops).rx_buffer.length = s.rx_buffer_len ∧
    con + consumed_count s ops ≤ dep + deposited_count ops ∧
    (run_ops s ops).rx_read_ptr = (con + consumed_count s ops) % s.rx_buffer_len ∧
    (run_ops s ops).dma_write_ptr = (dep + deposited_count ops) % s.rx_buffer_len := by
  induction ops with
  | nil =>
    intro s dep con h1 h2 h3 h4 h5
    refine ⟨rfl, h2, (by omega : con + 0 ≤ dep + 0), ?_, ?_⟩
    · show s.rx_read_ptr = (con + 0) % s.rx_buffer_len
      rw [Nat.add_zero]
      exact h4
    · show s.dma_write_ptr = (dep + 0) % s.rx_buffer_len
      rw [Nat.add_zero]
      exact h5
  | cons op rest ih =>
    intro s dep con h1 h2 h3 h4 h5
    cases op with
    | deposit b =>
      have h2' : (apply_op s (uart_op.deposit b)).rx_buffer.length
          = (apply_op s (uart_op.deposit b)).rx_buffer_len := by
        show (s.rx_buffer.set s.dma_write_ptr b).length = s.rx_buffer_len
        rw [List.length_set]
        exact h2
      have h5' : (apply_op s (uart_op.deposit b)).dma_write_ptr
          = (dep + 1) % (apply_op s (uart_op.deposit b)).rx_buffer_len := by
        show (s.dma_write_ptr + 1) % s.rx_buffer_len = (dep + 1) % s.rx_buffer_len
        rw [h5, Nat.mod_add_mod]
      obtain ⟨g1, g2, g3, g4, g5⟩ :=
        ih (apply_op s (uart_op.deposit b)) (dep + 1) con h1 h2' (by omega) h4 h5'
      refine ⟨g1, g2, ?_, g4, ?_⟩
      · show con + consumed_count (apply_op s (uart_op.deposit b)) rest
          ≤ dep + (deposited_count rest + 1)
        omega
      · have harith : dep + (deposited_count rest + 1) = dep + 1 + deposited_count rest := by
          omega
        show (run_ops (apply_op s (uart_op.deposit b)) rest).dma_write_ptr
          = (dep + (deposited_count rest + 1)) % s.rx_buffer_len
        rw [harith]
        exact g5
    | read =>
      have hsub : con + (dep - con) = dep := by omega
      have hk : bytes_available s = (dep - con) % s.rx_buffer_len := by
        unfold bytes_available
        rw [h4, h5]
        conv_lhs => rw [← hsub]
        exact ring_avail_mod _ _ _ h1
      have hkle : bytes_available s ≤ dep - con := by
        rw [hk]
        exact Nat.mod_le _ _
      have h4' : (apply_op s uart_op.read).rx_read_ptr
          = (con + bytes_available s) % (apply_op s uart_op.read).rx_buffer_len := by
        show s.dma_write_ptr = (con + bytes_available s) % s.rx_buffer_len
        rw [h5, hk]
        have hmod : (con + (dep - con) % s.rx_buffer_len) % s.rx_buffer_len
            = (con + (dep - con)) % s.rx_buffer_len :=
          Nat.ModEq.add_left con (Nat.mod_modEq _ _)
        rw [hmod, hsub]
      obtain ⟨g1, g2, g3, g4, g5⟩ :=
        ih (apply_op s uart_op.read) dep (con + bytes_available s) h1 h2 (by omega) h4' h5
      refine ⟨g1, g2, ?_, ?_, g5⟩
      · show con + (bytes_available s + consumed_count (apply_op s uart_op.read) rest)
          ≤ dep + deposited_count rest
        omega
      · have harith : con + (bytes_available s + consumed_count (apply_op s uart_op.read) rest)
            = con + bytes_available s + consumed_count (apply_op s uart_op.read) rest := by
          omega
        show (run_ops (apply_op s uart_op.read) rest).rx_read_ptr
          = (con + (bytes_available s + consumed_count (apply_op s uart_op.read) rest))
              % s.rx_buffer_len
        rw [harith]
        exact g4
    | scan =>
      obtain ⟨f1, f2, f3, f4, f5⟩ := scan_ctrl_chars_fields s
      have f1' : (apply_op s uart_op.scan).rx_buffer = s.rx_buffer := f1
      have f2' : (apply_op s uart_op.scan).rx_buffer_len = s.rx_buffer_len := f2
      have f3' : (apply_op s uart_op.scan).rx_read_ptr = s.rx_read_ptr := f3
      have f4' : (apply_op s uart_op.scan).dma_write_ptr = s.dma_write_ptr := f4
      have h1' : 0 < (apply_op s uart_op.scan).rx_buffer_len := by
        rw [f2']
        exact h1
      have h2' : (apply_op s uart_op.scan).rx_buffer.length
          = (apply_op s uart_op.scan).rx_buffer_len := by
        rw [f1', f2']
        exact h2
      have h4' : (apply_op s uart_op.scan).rx_read_ptr
          = con % (apply_op s uart_op.scan).rx_buffer_len := by
        rw [f3', f2']
        exact h4
      have h5' : (apply_op s uart_op.scan).dma_write_ptr
          = dep % (apply_op s uart_op.scan).rx_buffer_len := by
        rw [f4', f2']
        exact h5
      obtain ⟨g1, g2, g3, g4, g5⟩ := ih (apply_op s uart_op.scan) dep con h1' h2' h3 h4' h5'
      refine ⟨?_, ?_, g3, ?_, ?_⟩
      · show (run_ops (apply_op s uart_op.scan) rest).rx_buffer_len = s.rx_buffer_len
        rw [g1]
        exact f2'
      · show (run_ops (apply_op s uart_op.scan) rest).rx_buffer.length = s.rx_buffer_len
        rw [g2]
        exact f2'
      · show (run_ops (apply_op s uart_op.scan) rest).rx_read_ptr
          = (con + consumed_count (apply_op s uart_op.scan) rest) % s.rx_buffer_len
        rw [g4, f2']
      · show (run_ops (apply_op s uart_op.scan) rest).dma_write_ptr
          = (dep + deposited_count rest) % s.rx_buffer_len
        rw [g5, f2']

/--
C3: starting from a reset context (both cursors at the buffer start), after
every sequence of deposit/read/scan operations the total number of bytes
consumed by reads never exceeds the total number of bytes the DMA deposited
(the read cursor never passes the DMA write position), both cursors are the
ghost counters reduced modulo `rx_buffer_len` (all cursor arithmetic wraps
modulo the buffer length), and the read cursor stays inside
`[0, rx_buffer_len)` — the offset image of `[rx_buffer, rx_buffer +
rx_buffer_len)`.
-/
theorem C3_read_cursor_never_passes_dma (s : sl_iostream_uart_context_t)
    (ops : List uart_op) (hlen : 0 < s.rx_buffer_len)
    (hbuf : s.rx_buffer.length = s.rx_buffer_len)
    (hr0 : s.rx_read_ptr = 0) (hw0 : s.dma_write_ptr = 0) :
    consumed_count s ops ≤ deposited_count ops ∧
    (run_ops s ops).rx_read_ptr = consumed_count s ops % s.rx_buffer_len ∧
    (run_ops s ops).dma_write_ptr = deposited_count ops % s.rx_buffer_len ∧
    (run_ops s ops).rx_read_ptr < s.rx_buffer_len := by
  obtain ⟨g1, g2, g3, g4, g5⟩ := run_ops_counters ops s 0 0 hlen hbuf (Nat.le_refl 0)
    (by rw [hr0, Nat.zero_mod]) (by rw [hw0, Nat.zero_mod])
  have e1 : 0 + consumed_count s ops = consumed_count s ops := by omega
  have e2 : 0 + deposited_count ops = deposited_count ops := by omega
  rw [e1] at g3 g4
  rw [e2] at g3 g5
  refine ⟨g3, g4, g5, ?_⟩
  rw [g4]
  exact Nat.mod_lt _ hlen

/-- Instantiation of the C3 theorem at the reset context and a concrete
operation sequence. -/
theorem C3_read_cursor_never_passes_dma_witness :
    0 < sample_ctx_reset.rx_buffer_len ∧
    sample_ctx_reset.rx_buffer.length = sample_ctx_reset.rx_buffer_len ∧
    sample_ctx_reset.rx_read_ptr = 0 ∧
    sample_ctx_reset.dma_write_ptr = 0 ∧
    (consumed_count sample_ctx_reset sample_ops ≤ deposited_count sample_ops ∧
     (run_ops sample_ctx_reset sample_ops).rx_read_ptr
       = consumed_count sample_ctx_reset sample_ops % sample_ctx_reset.rx_buffer_len ∧
     (run_ops sample_ctx_reset sample_ops).dma_write_ptr
       = deposited_count sample_ops % sample_ctx_reset.rx_buffer_len ∧
     (run_ops sample_ctx_reset sample_ops).rx_read_ptr < sample_ctx_reset.rx_buffer_len) :=
  ⟨by decide, by decide, by decide, by decide,
   C3_read_cursor_never_passes_dma sample_ctx_reset sample_ops
     (by decide) (by decide) (by decide) (by decide)⟩

end IostreamUart
